import Mathlib

/-!
Verification of the paper-feed source-integration core: URL-to-paper-id
extraction (per-publisher regular-expression routing), publisher-specific
metadata extractors with fallback chains over page meta tags, and the
integration registry.

The JavaScript regular expressions used by `extractPaperId` are embedded as
an abstract syntax (character literals, character classes, the quantifiers
`?`, `*`, `+`, and flat capture groups -- exactly the constructs used by the
source patterns) together with an executable matcher that reproduces
`String.prototype.match` semantics: leftmost search position first, greedy
quantifiers with backtracking, capture groups reported at indices 1..n.
The matcher enumerates backtracking alternatives in depth-first (greedy
first) order and takes the first surviving alternative, which is the JS
backtracking result.
-/

namespace PapersFeed

/-- Quantifier on a single regex atom: exactly one, `?`, `*` or `+`. -/
inductive Quant
  | one
  | opt
  | star
  | plus

/-- One alternative inside a character class: a literal character, a
character range, the digit class `\d`, or the whitespace class `\s`
(modelled over the ASCII whitespace characters). -/
inductive CAtom
  | chr (c : Char)
  | range (lo hi : Char)
  | digit
  | space

/-- JS whitespace test for the `\s` class, modelled over ASCII whitespace. -/
def isJsSpace (c : Char) : Bool :=
  c == ' ' || c == '\t' || c == '\n' || c == '\r' || c == '\x0b' || c == '\x0c'

def CAtom.test : CAtom → Char → Bool
  | .chr a, c => c == a
  | .range lo hi, c => decide (lo ≤ c) && decide (c ≤ hi)
  | .digit, c => c.isDigit
  | .space, c => isJsSpace c

/-- A character class `[...]` or `[^...]`. -/
structure CSet where
  neg : Bool
  items : List CAtom

def CSet.test (s : CSet) (c : Char) : Bool :=
  if s.neg then !(s.items.any (·.test c)) else s.items.any (·.test c)

/-- A regex atom: a literal character or a character class. -/
inductive Atom
  | chr (c : Char)
  | cls (s : CSet)

def Atom.test : Atom → Char → Bool
  | .chr a, c => c == a
  | .cls s, c => s.test c

/-- Top-level regex item: a quantified atom or a capture group holding a
sequence of quantified atoms (the source patterns have no nested groups). -/
inductive RItem
  | atom (a : Atom) (q : Quant)
  | group (g : List (Atom × Quant))

/-- A regex is a sequence of items, as in the source's pattern literals. -/
abbrev JsRegex := List RItem

/-- Flattened item stream: quantified atoms with group-boundary markers. -/
inductive FItem
  | fatom (a : Atom) (q : Quant)
  | openG
  | closeG

def flattenR (r : JsRegex) : List FItem :=
  r.flatMap fun
    | .atom a q => [.fatom a q]
    | .group g => .openG :: (g.map fun p => FItem.fatom p.1 p.2) ++ [.closeG]

/-- Number of capture groups of a regex (the JS match object has exactly
this many entries after the full match). -/
def numGroups (r : JsRegex) : Nat :=
  r.countP fun | .group _ => true | _ => false

/-- Matcher state: input not yet consumed, the capture currently being
accumulated (when inside a group), and the completed captures in order. -/
structure MSt where
  rest : List Char
  acc : Option (List Char)
  gs : List (List Char)

/-- Consume `k` characters, recording them in the open capture if any. -/
def consumeN (st : MSt) (k : Nat) : MSt :=
  ⟨st.rest.drop k, st.acc.map (· ++ st.rest.take k), st.gs⟩

/-- Length of the longest prefix whose characters all satisfy `p`. -/
def runLen (p : Char → Bool) : List Char → Nat
  | [] => 0
  | c :: cs => if p c then runLen p cs + 1 else 0

def quantMin : Quant → Nat
  | .one => 1
  | .plus => 1
  | .opt => 0
  | .star => 0

/-- Largest number of characters a quantified atom may consume here. -/
def atomMax (a : Atom) (q : Quant) (l : List Char) : Nat :=
  match q with
  | .one | .opt =>
    match l with
    | [] => 0
    | c :: _ => if a.test c then 1 else 0
  | .plus | .star => runLen a.test l

/-- The list `[mx, mx-1, ..., lo]`: greedy-first candidate consumption
counts for a quantified atom, in JS backtracking order. -/
def descList (mx lo : Nat) : List Nat :=
  (List.range (mx + 1 - lo)).map (fun i => mx - i)

/-- All successor states of one flattened item, in backtracking priority
order (greedy alternatives first). -/
def stepItem (it : FItem) (st : MSt) : List MSt :=
  match it with
  | .openG => [{ st with acc := some [] }]
  | .closeG => [⟨st.rest, none, st.gs ++ [st.acc.getD []]⟩]
  | .fatom a q =>
    let mx := atomMax a q st.rest
    if mx < quantMin q then []
    else (descList mx (quantMin q)).map (consumeN st)

/-- Run the item stream over a priority-ordered list of candidate states.
The resulting list is in depth-first (JS backtracking) exploration order. -/
def runItems : List FItem → List MSt → List MSt
  | [], sts => sts
  | it :: rest, sts => runItems rest (sts.flatMap (stepItem it))

/-- Match the flattened regex at the start of the state's input; the head
of the exploration order is the state JS backtracking would produce. -/
def matchFlat (items : List FItem) (st : MSt) : Option MSt :=
  (runItems items [st]).head?

/-- Leftmost search: try each start position in order, as JS `match` does
for a pattern without the `g` flag. -/
def searchFrom (items : List FItem) : List Char → Option MSt
  | [] => matchFlat items ⟨[], none, []⟩
  | c :: t =>
    match matchFlat items ⟨c :: t, none, []⟩ with
    | some st => some st
    | none => searchFrom items t

/-- JS `url.match(pattern)` restricted to the capture groups: `none` when
the pattern does not match, otherwise the list of captured substrings,
padded to exactly `numGroups` entries as the JS match object is. -/
def jsMatch (r : JsRegex) (s : String) : Option (List String) :=
  (searchFrom (flattenR r) s.data).map fun st =>
    (List.range (numGroups r)).map fun i => ((st.gs.get? i).getD []).asString

/-- JS `match[i]` for `i ≥ 1`: the i-th capture group (a group that is
absent dereferences to the string JS prints for `undefined`). -/
def groupAt (m : List String) (i : Nat) : String :=
  (m.get? (i - 1)).getD "undefined"

/-! Pattern-building helpers mirroring the source regex literals. -/

/-- A run of literal characters. -/
def litItems (s : String) : List RItem :=
  s.data.map fun c => RItem.atom (.chr c) .one

/-- A run of literal characters inside a capture group. -/
def glit (s : String) : List (Atom × Quant) :=
  s.data.map fun c => (Atom.chr c, Quant.one)

def digitCls : Atom := .cls ⟨false, [.digit]⟩
def hexLowerCls : Atom := .cls ⟨false, [.range 'a' 'f', .range '0' '9']⟩
def upperCls : Atom := .cls ⟨false, [.range 'A' 'Z']⟩
def upperDigitCls : Atom := .cls ⟨false, [.range 'A' 'Z', .range '0' '9']⟩
/-- The class `[^v\s?]` from the medRxiv DOI pattern. -/
def medTailCls : Atom := .cls ⟨true, [.chr 'v', .space, .chr '?']⟩
/-- The class `[^.]`. -/
def noDotCls : Atom := .cls ⟨true, [.chr '.']⟩
/-- The class `[^\s?]` from the Springer DOI pattern. -/
def noWsQCls : Atom := .cls ⟨true, [.space, .chr '?']⟩
/-- The class `[_\/]` from the CVF patterns. -/
def uslCls : Atom := .cls ⟨false, [.chr '_', .chr '/']⟩

/-! The per-publisher URL patterns, transcribed from the source files. -/

/-- `/medrxiv\.org\/content\/(10\.\d+\/[^v\s?]+)v?\d*/` -/
def medRxivP1 : JsRegex :=
  litItems "medrxiv.org/content/" ++
  [RItem.group (glit "10." ++
    [(digitCls, .plus), (Atom.chr '/', .one), (medTailCls, .plus)])] ++
  [RItem.atom (.chr 'v') .opt, RItem.atom digitCls .star]

/-- `/medrxiv\.org\/content\/early\/\d+\/\d+\/\d+\/(\d+)/` -/
def medRxivP2 : JsRegex :=
  litItems "medrxiv.org/content/early/" ++
  [RItem.atom digitCls .plus, RItem.atom (.chr '/') .one,
   RItem.atom digitCls .plus, RItem.atom (.chr '/') .one,
   RItem.atom digitCls .plus, RItem.atom (.chr '/') .one,
   RItem.group [(digitCls, .plus)]]

def medRxivUrlPatterns : List JsRegex := [medRxivP1, medRxivP2]

/-- Shared shape of the five NeurIPS patterns: `(\d+)` then a literal
segment then `([a-f0-9]+)`. -/
def neuripsPat (head mid : String) : JsRegex :=
  litItems head ++ [RItem.group [(digitCls, .plus)]] ++
  litItems mid ++ [RItem.group [(hexLowerCls, .plus)]]

def neuripsUrlPatterns : List JsRegex :=
  [neuripsPat "papers.nips.cc/paper/" "/hash/",
   neuripsPat "papers.nips.cc/paper/" "/file/",
   neuripsPat "proceedings.neurips.cc/paper/" "/hash/",
   neuripsPat "proceedings.neurips.cc/paper/" "/file/",
   neuripsPat "proceedings.neurips.cc/paper_files/paper/" "/hash/"]

/-- Shared shape of the two CVF patterns:
`openaccess\.thecvf\.com\/content[_\/]([A-Z]+)[_\/](\d+)[_\/]<seg>[_\/]([^.]+)\.<ext>` -/
def cvfPat (seg ext : String) : JsRegex :=
  litItems "openaccess.thecvf.com/content" ++
  [RItem.atom uslCls .one, RItem.group [(upperCls, .plus)],
   RItem.atom uslCls .one, RItem.group [(digitCls, .plus)],
   RItem.atom uslCls .one] ++
  litItems seg ++
  [RItem.atom uslCls .one, RItem.group [(noDotCls, .plus)]] ++
  litItems ("." ++ ext)

def cvfUrlPatterns : List JsRegex := [cvfPat "html" "html", cvfPat "papers" "pdf"]

/-- The captured ACM DOI shape `(10\.\d+\/\d+)`. -/
def acmDoiGroup : RItem :=
  .group (glit "10." ++ [(digitCls, .plus), (Atom.chr '/', .one), (digitCls, .plus)])

def acmUrlPatterns : List JsRegex :=
  [litItems "dl.acm.org/doi/" ++ [acmDoiGroup],
   litItems "dl.acm.org/doi/abs/" ++ [acmDoiGroup],
   litItems "dl.acm.org/citation.cfm?id=" ++ [RItem.group [(digitCls, .plus)]]]

def ssrnUrlPatterns : List JsRegex :=
  [litItems "ssrn.com/abstract=" ++ [RItem.group [(digitCls, .plus)]],
   litItems "papers.ssrn.com/sol3/papers.cfm?abstract_id=" ++
     [RItem.group [(digitCls, .plus)]]]

/-- The captured Springer DOI shape `(10\.\d+\/[^\s?]+)`. -/
def springerDoiGroup : RItem :=
  .group (glit "10." ++ [(digitCls, .plus), (Atom.chr '/', .one), (noWsQCls, .plus)])

def springerUrlPatterns : List JsRegex :=
  [litItems "link.springer.com/article/" ++ [springerDoiGroup],
   litItems "link.springer.com/chapter/" ++ [springerDoiGroup]]

def ieeeUrlPatterns : List JsRegex :=
  [litItems "ieeexplore.ieee.org/document/" ++ [RItem.group [(digitCls, .plus)]],
   litItems "ieeexplore.ieee.org/abstract/document/" ++
     [RItem.group [(digitCls, .plus)]]]

/-- The captured ACL anthology id shape `([A-Z0-9]+\.\d+-\d+)`. -/
def aclIdGroup : RItem :=
  .group [(upperDigitCls, .plus), (Atom.chr '.', .one), (digitCls, .plus),
          (Atom.chr '-', .one), (digitCls, .plus)]

def aclUrlPatterns : List JsRegex :=
  [litItems "aclanthology.org/" ++ [aclIdGroup],
   litItems "aclweb.org/anthology/" ++ [aclIdGroup]]

/-! The per-publisher `extractPaperId` functions, transcribed from the
source: iterate `urlPatterns`, return on the first match. -/

/-- `MedRxivIntegration.extractPaperId`: `return match[1]`. -/
def medRxivExtractPaperId (url : String) : Option String :=
  medRxivUrlPatterns.findSome? fun p => (jsMatch p url).map fun m => groupAt m 1

/-- `NeurIPSIntegration.extractPaperId`: ``return `${match[1]}-${match[2]}` ``. -/
def neuripsExtractPaperId (url : String) : Option String :=
  neuripsUrlPatterns.findSome? fun p =>
    (jsMatch p url).map fun m => groupAt m 1 ++ "-" ++ groupAt m 2

/-- `CVFIntegration.extractPaperId`: ``return `${match[1]}-${match[2]}-${match[3]}` ``. -/
def cvfExtractPaperId (url : String) : Option String :=
  cvfUrlPatterns.findSome? fun p =>
    (jsMatch p url).map fun m => groupAt m 1 ++ "-" ++ groupAt m 2 ++ "-" ++ groupAt m 3

/-- `ACMIntegration.extractPaperId`: `return match[1]`. -/
def acmExtractPaperId (url : String) : Option String :=
  acmUrlPatterns.findSome? fun p => (jsMatch p url).map fun m => groupAt m 1

/-- `SSRNIntegration.extractPaperId`: `return match[1]`. -/
def ssrnExtractPaperId (url : String) : Option String :=
  ssrnUrlPatterns.findSome? fun p => (jsMatch p url).map fun m => groupAt m 1

/-- `SpringerIntegration.extractPaperId`: `return match[1]`. -/
def springerExtractPaperId (url : String) : Option String :=
  springerUrlPatterns.findSome? fun p => (jsMatch p url).map fun m => groupAt m 1

/-- `IEEEIntegration.extractPaperId`: `return match[1]`. -/
def ieeeExtractPaperId (url : String) : Option String :=
  ieeeUrlPatterns.findSome? fun p => (jsMatch p url).map fun m => groupAt m 1

/-- `ACLIntegration.extractPaperId`: `return match[1]`. -/
def aclExtractPaperId (url : String) : Option String :=
  aclUrlPatterns.findSome? fun p => (jsMatch p url).map fun m => groupAt m 1

/-- Definition following the spec's words, to be compared with the source
embeddings: "iterate `urlPatterns` in declared order; return the first
successful match's captured group(s), joined with `-` if multiple groups
are semantically part of the identifier; return none if no pattern
matches." -/
def extractPaperIdSpec (ps : List JsRegex) (url : String) : Option String :=
  (ps.findSome? fun p => jsMatch p url).map fun m => String.intercalate "-" m

/-- Literal-run helper over the flattened item stream, used by the matcher
lemmas. -/
def litsF (cs : List Char) : List FItem :=
  cs.map fun c => FItem.fatom (.chr c) .one

/-!
## Page documents and metadata extraction

A page document is modelled by the result of the DOM queries the extractors
perform: `getMetaContent(selector)` (content attribute of the first matching
meta element, or null), `querySelectorAll(selector)` over meta elements
(their content attributes, null when absent), `querySelector(selector)`
(the element's textContent, itself nullable), and `querySelectorAll` over
text-bearing elements. Each map is an association list keyed by the literal
selector strings the source passes.
-/

structure Doc where
  metas : List (String × String)
  metaLists : List (String × List (Option String))
  sels : List (String × Option String)
  selLists : List (String × List (Option String))

/-- Modelled from the spec: the base class helper `getMetaContent` of the
missing `metadata-extractor.ts` — query the page for the selector and
return the matched meta element's content attribute, null when absent. -/
def getMetaContent (d : Doc) (sel : String) : Option String :=
  (d.metas.find? (fun p => p.1 == sel)).map (·.2)

/-- `document.querySelectorAll(sel)` over meta elements: the content
attribute of each match (null when the attribute is absent). -/
def queryAllContents (d : Doc) (sel : String) : List (Option String) :=
  ((d.metaLists.find? (fun p => p.1 == sel)).map (·.2)).getD []

/-- `document.querySelector(sel)`: `some txt` when an element is found
(`txt` its nullable textContent), `none` when no element matches. -/
def querySelText (d : Doc) (sel : String) : Option (Option String) :=
  (d.sels.find? (fun p => p.1 == sel)).map (·.2)

/-- `document.querySelectorAll(sel)` over text-bearing elements: the
nullable textContent of each match. -/
def queryAllTexts (d : Doc) (sel : String) : List (Option String) :=
  ((d.selLists.find? (fun p => p.1 == sel)).map (·.2)).getD []

/-- JS truthiness of a nullable string: null and the empty string are falsy. -/
def truthy (o : Option String) : Bool := o.getD "" != ""

/-- JS `a || b` over nullable strings. -/
def jsOr (a b : Option String) : Option String := if truthy a then a else b

/-- JS `a || b` where `b` is a plain string expression, as in
`metaTitle || super.extractTitle()`. -/
def orStr (a : Option String) (b : String) : String :=
  if truthy a then a.getD "" else b

/-- `JS String.prototype.split` at every separator character, keeping
empty pieces, over the character list. -/
def splitChars (p : Char → Bool) : List Char → List (List Char)
  | [] => [[]]
  | c :: cs =>
    match splitChars p cs with
    | [] => [[]]
    | t :: ts => if p c then [] :: t :: ts else (c :: t) :: ts

/-- JS `s.split(regexp)` for a single-character separator class. -/
def jsSplit (p : Char → Bool) (s : String) : List String :=
  (splitChars p s.data).map List.asString

/-- JS `s.trim()`: strip leading and trailing whitespace. -/
def jsTrim (s : String) : String :=
  (((s.data.dropWhile isJsSpace).reverse.dropWhile isJsSpace).reverse).asString

/-- The `forEach`/push loop over `citation_author`-style meta elements:
keep each content attribute that is present and truthy. -/
def metaContentsTruthy (l : List (Option String)) : List String :=
  l.filterMap fun c =>
    match c with
    | some s => if s == "" then none else some s
    | none => none

/-- `Array.from(els).map(el => el.textContent?.trim()).filter(Boolean)`. -/
def textsTruthy (els : List (Option String)) : List String :=
  (els.filterMap fun t => t.map jsTrim).filter (fun s => s != "")

/-- The tag-splitting expression shared by every extractor:
`keywords.split(/[;,]/).map(tag => tag.trim()).filter(Boolean)`. -/
def splitTags (s : String) : List String :=
  ((jsSplit (fun c => c == ';' || c == ',') s).map jsTrim).filter (fun t => t != "")

/-!
### Base extractor defaults

The base `MetadataExtractor` class is not under src/ (only the subclasses
are); its default strategies are modelled from the spec, section 4.1:
generic meta tags, absence yielding an empty string/list.
-/

/-- Modelled from the spec: base title — "first present of `og:title`
meta, else empty". -/
def baseExtractTitle (d : Doc) : String :=
  orStr (getMetaContent d "meta[property=\"og:title\"]") ""

/-- Modelled from the spec: base authors — "comma-joined list from author
meta tags if present, else empty". -/
def baseExtractAuthors (d : Doc) : String :=
  String.intercalate ", " (metaContentsTruthy (queryAllContents d "meta[name=\"author\"]"))

/-- Modelled from the spec: base description — "`description` or
`og:description` meta". -/
def baseExtractDescription (d : Doc) : String :=
  orStr (jsOr (getMetaContent d "meta[name=\"description\"]")
    (getMetaContent d "meta[property=\"og:description\"]")) ""

/-- Modelled from the spec: base date — "a generic date meta tag if
present". -/
def baseExtractPublishedDate (d : Doc) : String :=
  orStr (getMetaContent d "meta[name=\"date\"]") ""

/-- Modelled from the spec: base DOI — "a generic DOI meta tag if
present". -/
def baseExtractDoi (d : Doc) : String :=
  orStr (getMetaContent d "meta[name=\"doi\"]") ""

/-- Modelled from the spec: base journal name — "empty unless
overridden". -/
def baseExtractJournalName (_ : Doc) : String := ""

/-- Modelled from the spec: base tags — "split a `keywords` meta value on
`,`/`;`, trimmed, empty entries removed". -/
def baseExtractTags (d : Doc) : List String :=
  let k := getMetaContent d "meta[name=\"keywords\"]"
  if truthy k then splitTags (k.getD "") else []

/-! ### MedRxivMetadataExtractor -/

def medrxivExtractTitle (d : Doc) : String :=
  let metaTitle := jsOr (getMetaContent d "meta[name=\"citation_title\"]")
    (jsOr (getMetaContent d "meta[property=\"og:title\"]")
      (getMetaContent d "meta[name=\"DC.Title\"]"))
  orStr metaTitle (baseExtractTitle d)

def medrxivExtractAuthors (d : Doc) : String :=
  let cs := metaContentsTruthy (queryAllContents d "meta[name=\"citation_author\"]")
  if cs.length > 0 then String.intercalate ", " cs else baseExtractAuthors d

def medrxivExtractDescription (d : Doc) : String :=
  let md := jsOr (getMetaContent d "meta[name=\"citation_abstract\"]")
    (jsOr (getMetaContent d "meta[name=\"description\"]")
      (getMetaContent d "meta[property=\"og:description\"]"))
  orStr md (baseExtractDescription d)

def medrxivExtractPublishedDate (d : Doc) : String :=
  orStr (jsOr (getMetaContent d "meta[name=\"citation_publication_date\"]")
    (jsOr (getMetaContent d "meta[name=\"citation_online_date\"]")
      (getMetaContent d "meta[name=\"DC.Date\"]")))
    (baseExtractPublishedDate d)

def medrxivExtractDoi (d : Doc) : String :=
  orStr (jsOr (getMetaContent d "meta[name=\"citation_doi\"]")
    (getMetaContent d "meta[name=\"DC.Identifier\"]"))
    (baseExtractDoi d)

/-- `citation_journal_title || 'medRxiv' || super.extractJournalName()`. -/
def medrxivExtractJournalName (d : Doc) : String :=
  orStr (getMetaContent d "meta[name=\"citation_journal_title\"]")
    (orStr (some "medRxiv") (baseExtractJournalName d))

def medrxivExtractTags (d : Doc) : List String :=
  let keywords := jsOr (getMetaContent d "meta[name=\"citation_keywords\"]")
    (getMetaContent d "meta[name=\"keywords\"]")
  if truthy keywords then splitTags (keywords.getD "") else baseExtractTags d

/-! ### NeurIPSMetadataExtractor -/

def neuripsExtractTitle (d : Doc) : String :=
  let metaTitle := jsOr (getMetaContent d "meta[name=\"citation_title\"]")
    (getMetaContent d "meta[property=\"og:title\"]")
  orStr metaTitle (baseExtractTitle d)

def neuripsExtractAuthors (d : Doc) : String :=
  let cs := metaContentsTruthy (queryAllContents d "meta[name=\"citation_author\"]")
  if cs.length > 0 then String.intercalate ", " cs
  else
    let els := queryAllTexts d ".author a, .author span"
    if els.length > 0 then String.intercalate ", " (textsTruthy els)
    else baseExtractAuthors d

def neuripsExtractDescription (d : Doc) : String :=
  let md := jsOr (getMetaContent d "meta[name=\"citation_abstract\"]")
    (jsOr (getMetaContent d "meta[name=\"description\"]")
      (getMetaContent d "meta[property=\"og:description\"]"))
  if truthy md then orStr md (baseExtractDescription d)
  else
    match querySelText d ".abstract" with
    | some txt => orStr (txt.map jsTrim) ""
    | none => orStr md (baseExtractDescription d)

def neuripsExtractPublishedDate (d : Doc) : String :=
  orStr (jsOr (getMetaContent d "meta[name=\"citation_publication_date\"]")
    (getMetaContent d "meta[name=\"citation_date\"]"))
    (baseExtractPublishedDate d)

/-- `extractDoi` is not overridden by the NeurIPS extractor. -/
def neuripsExtractDoi (d : Doc) : String := baseExtractDoi d

/-- `citation_conference_title || 'NeurIPS' || super.extractJournalName()`. -/
def neuripsExtractJournalName (d : Doc) : String :=
  orStr (getMetaContent d "meta[name=\"citation_conference_title\"]")
    (orStr (some "NeurIPS") (baseExtractJournalName d))

def neuripsExtractTags (d : Doc) : List String :=
  let keywords := jsOr (getMetaContent d "meta[name=\"citation_keywords\"]")
    (getMetaContent d "meta[name=\"keywords\"]")
  if truthy keywords then splitTags (keywords.getD "") else baseExtractTags d

/-! ### CVFMetadataExtractor -/

def cvfExtractTitle (d : Doc) : String :=
  let metaTitle := jsOr (getMetaContent d "meta[name=\"citation_title\"]")
    (getMetaContent d "meta[property=\"og:title\"]")
  orStr metaTitle (baseExtractTitle d)

def cvfExtractAuthors (d : Doc) : String :=
  let cs := metaContentsTruthy (queryAllContents d "meta[name=\"citation_author\"]")
  if cs.length > 0 then String.intercalate ", " cs
  else
    let els := queryAllTexts d ".author a, #authors b"
    if els.length > 0 then String.intercalate ", " (textsTruthy els)
    else baseExtractAuthors d

def cvfExtractDescription (d : Doc) : String :=
  let md := jsOr (getMetaContent d "meta[name=\"citation_abstract\"]")
    (jsOr (getMetaContent d "meta[name=\"description\"]")
      (getMetaContent d "meta[property=\"og:description\"]"))
  if truthy md then orStr md (baseExtractDescription d)
  else
    match querySelText d "#abstract" with
    | some txt => orStr (txt.map jsTrim) ""
    | none => orStr md (baseExtractDescription d)

def cvfExtractPublishedDate (d : Doc) : String :=
  orStr (jsOr (getMetaContent d "meta[name=\"citation_publication_date\"]")
    (getMetaContent d "meta[name=\"citation_date\"]"))
    (baseExtractPublishedDate d)

/-- `extractDoi` is not overridden by the CVF extractor. -/
def cvfExtractDoi (d : Doc) : String := baseExtractDoi d

def cvfExtractJournalName (d : Doc) : String :=
  orStr (getMetaContent d "meta[name=\"citation_conference_title\"]")
    (baseExtractJournalName d)

def cvfExtractTags (d : Doc) : List String :=
  let keywords := jsOr (getMetaContent d "meta[name=\"citation_keywords\"]")
    (getMetaContent d "meta[name=\"keywords\"]")
  if truthy keywords then splitTags (keywords.getD "") else baseExtractTags d

/-! ### SSRNMetadataExtractor -/

def ssrnExtractTitle (d : Doc) : String :=
  let metaTitle := jsOr (getMetaContent d "meta[name=\"citation_title\"]")
    (getMetaContent d "meta[property=\"og:title\"]")
  orStr metaTitle (baseExtractTitle d)

def ssrnExtractAuthors (d : Doc) : String :=
  let cs := metaContentsTruthy (queryAllContents d "meta[name=\"citation_author\"]")
  if cs.length > 0 then String.intercalate ", " cs else baseExtractAuthors d

def ssrnExtractDescription (d : Doc) : String :=
  let md := jsOr (getMetaContent d "meta[name=\"description\"]")
    (getMetaContent d "meta[property=\"og:description\"]")
  orStr md (baseExtractDescription d)

def ssrnExtractPublishedDate (d : Doc) : String :=
  orStr (jsOr (getMetaContent d "meta[name=\"citation_publication_date\"]")
    (jsOr (getMetaContent d "meta[name=\"citation_date\"]")
      (getMetaContent d "meta[name=\"citation_online_date\"]")))
    (baseExtractPublishedDate d)

def ssrnExtractDoi (d : Doc) : String :=
  orStr (getMetaContent d "meta[name=\"citation_doi\"]") (baseExtractDoi d)

/-- `citation_journal_title || 'SSRN' || super.extractJournalName()`. -/
def ssrnExtractJournalName (d : Doc) : String :=
  orStr (getMetaContent d "meta[name=\"citation_journal_title\"]")
    (orStr (some "SSRN") (baseExtractJournalName d))

def ssrnExtractTags (d : Doc) : List String :=
  let keywords := jsOr (getMetaContent d "meta[name=\"citation_keywords\"]")
    (getMetaContent d "meta[name=\"keywords\"]")
  if truthy keywords then splitTags (keywords.getD "") else baseExtractTags d

/-! ### ACMMetadataExtractor -/

def acmExtractTitle (d : Doc) : String :=
  let metaTitle := jsOr (getMetaContent d "meta[name=\"citation_title\"]")
    (jsOr (getMetaContent d "meta[property=\"og:title\"]")
      (getMetaContent d "meta[name=\"dc.Title\"]"))
  orStr metaTitle (baseExtractTitle d)

def acmExtractAuthors (d : Doc) : String :=
  let cs := metaContentsTruthy (queryAllContents d "meta[name=\"citation_author\"]")
  if cs.length > 0 then String.intercalate ", " cs else baseExtractAuthors d

def acmExtractDescription (d : Doc) : String :=
  let md := jsOr (getMetaContent d "meta[name=\"description\"]")
    (getMetaContent d "meta[property=\"og:description\"]")
  orStr md (baseExtractDescription d)

def acmExtractPublishedDate (d : Doc) : String :=
  orStr (jsOr (getMetaContent d "meta[name=\"citation_publication_date\"]")
    (jsOr (getMetaContent d "meta[name=\"citation_date\"]")
      (getMetaContent d "meta[name=\"dc.Date\"]")))
    (baseExtractPublishedDate d)

def acmExtractDoi (d : Doc) : String :=
  orStr (jsOr (getMetaContent d "meta[name=\"citation_doi\"]")
    (getMetaContent d "meta[name=\"dc.Identifier\"]"))
    (baseExtractDoi d)

def acmExtractJournalName (d : Doc) : String :=
  orStr (jsOr (getMetaContent d "meta[name=\"citation_journal_title\"]")
    (jsOr (getMetaContent d "meta[name=\"citation_conference_title\"]")
      (getMetaContent d "meta[name=\"dc.Source\"]")))
    (baseExtractJournalName d)

def acmExtractTags (d : Doc) : List String :=
  let keywords := jsOr (getMetaContent d "meta[name=\"citation_keywords\"]")
    (getMetaContent d "meta[name=\"keywords\"]")
  if truthy keywords then splitTags (keywords.getD "") else baseExtractTags d

/-! ### SpringerMetadataExtractor -/

def springerExtractTitle (d : Doc) : String :=
  let metaTitle := jsOr (getMetaContent d "meta[name=\"citation_title\"]")
    (jsOr (getMetaContent d "meta[property=\"og:title\"]")
      (getMetaContent d "meta[name=\"dc.title\"]"))
  orStr metaTitle (baseExtractTitle d)

def springerExtractAuthors (d : Doc) : String :=
  let cs := metaContentsTruthy (queryAllContents d "meta[name=\"citation_author\"]")
  if cs.length > 0 then String.intercalate ", " cs
  else
    let dcs := metaContentsTruthy (queryAllContents d "meta[name=\"dc.creator\"]")
    if dcs.length > 0 then String.intercalate ", " dcs
    else baseExtractAuthors d

def springerExtractDescription (d : Doc) : String :=
  let md := jsOr (getMetaContent d "meta[name=\"dc.description\"]")
    (jsOr (getMetaContent d "meta[name=\"description\"]")
      (getMetaContent d "meta[property=\"og:description\"]"))
  orStr md (baseExtractDescription d)

def springerExtractPublishedDate (d : Doc) : String :=
  orStr (jsOr (getMetaContent d "meta[name=\"citation_publication_date\"]")
    (jsOr (getMetaContent d "meta[name=\"citation_online_date\"]")
      (getMetaContent d "meta[name=\"dc.date\"]")))
    (baseExtractPublishedDate d)

def springerExtractDoi (d : Doc) : String :=
  orStr (jsOr (getMetaContent d "meta[name=\"citation_doi\"]")
    (getMetaContent d "meta[name=\"dc.identifier\"]"))
    (baseExtractDoi d)

def springerExtractJournalName (d : Doc) : String :=
  orStr (jsOr (getMetaContent d "meta[name=\"citation_journal_title\"]")
    (jsOr (getMetaContent d "meta[name=\"citation_conference_title\"]")
      (getMetaContent d "meta[name=\"prism.publicationName\"]")))
    (baseExtractJournalName d)

def springerExtractTags (d : Doc) : List String :=
  let keywords := jsOr (getMetaContent d "meta[name=\"citation_keywords\"]")
    (getMetaContent d "meta[name=\"keywords\"]")
  if truthy keywords then splitTags (keywords.getD "") else baseExtractTags d

/-! ### IEEEMetadataExtractor -/

def ieeeExtractTitle (d : Doc) : String :=
  let metaTitle := jsOr (getMetaContent d "meta[name=\"citation_title\"]")
    (getMetaContent d "meta[property=\"og:title\"]")
  orStr metaTitle (baseExtractTitle d)

def ieeeExtractAuthors (d : Doc) : String :=
  let cs := metaContentsTruthy (queryAllContents d "meta[name=\"citation_author\"]")
  if cs.length > 0 then String.intercalate ", " cs
  else
    let els := queryAllTexts d ".authors-info .author span"
    if els.length > 0 then String.intercalate ", " (textsTruthy els)
    else baseExtractAuthors d

def ieeeExtractDescription (d : Doc) : String :=
  let md := jsOr (getMetaContent d "meta[name=\"description\"]")
    (getMetaContent d "meta[property=\"og:description\"]")
  if truthy md then orStr md (baseExtractDescription d)
  else
    match querySelText d ".abstract-text" with
    | some txt => orStr (txt.map jsTrim) ""
    | none => orStr md (baseExtractDescription d)

def ieeeExtractPublishedDate (d : Doc) : String :=
  orStr (jsOr (getMetaContent d "meta[name=\"citation_publication_date\"]")
    (jsOr (getMetaContent d "meta[name=\"citation_date\"]")
      (getMetaContent d "meta[name=\"citation_online_date\"]")))
    (baseExtractPublishedDate d)

def ieeeExtractDoi (d : Doc) : String :=
  orStr (getMetaContent d "meta[name=\"citation_doi\"]") (baseExtractDoi d)

def ieeeExtractJournalName (d : Doc) : String :=
  orStr (jsOr (getMetaContent d "meta[name=\"citation_journal_title\"]")
    (getMetaContent d "meta[name=\"citation_conference_title\"]"))
    (baseExtractJournalName d)

def ieeeExtractTags (d : Doc) : List String :=
  let keywords := jsOr (getMetaContent d "meta[name=\"citation_keywords\"]")
    (getMetaContent d "meta[name=\"keywords\"]")
  if truthy keywords then splitTags (keywords.getD "")
  else
    let els := queryAllTexts d ".keywords .keyword"
    if els.length > 0 then textsTruthy els
    else baseExtractTags d

/-! ### ACLMetadataExtractor -/

def aclExtractTitle (d : Doc) : String :=
  let metaTitle := jsOr (getMetaContent d "meta[name=\"citation_title\"]")
    (getMetaContent d "meta[property=\"og:title\"]")
  orStr metaTitle (baseExtractTitle d)

def aclExtractAuthors (d : Doc) : String :=
  let cs := metaContentsTruthy (queryAllContents d "meta[name=\"citation_author\"]")
  if cs.length > 0 then String.intercalate ", " cs else baseExtractAuthors d

def aclExtractDescription (d : Doc) : String :=
  let md := jsOr (getMetaContent d "meta[name=\"citation_abstract\"]")
    (jsOr (getMetaContent d "meta[name=\"description\"]")
      (getMetaContent d "meta[property=\"og:description\"]"))
  orStr md (baseExtractDescription d)

def aclExtractPublishedDate (d : Doc) : String :=
  orStr (jsOr (getMetaContent d "meta[name=\"citation_publication_date\"]")
    (getMetaContent d "meta[name=\"citation_date\"]"))
    (baseExtractPublishedDate d)

def aclExtractDoi (d : Doc) : String :=
  orStr (getMetaContent d "meta[name=\"citation_doi\"]") (baseExtractDoi d)

def aclExtractJournalName (d : Doc) : String :=
  orStr (jsOr (getMetaContent d "meta[name=\"citation_conference_title\"]")
    (getMetaContent d "meta[name=\"citation_journal_title\"]"))
    (baseExtractJournalName d)

def aclExtractTags (d : Doc) : List String :=
  let keywords := jsOr (getMetaContent d "meta[name=\"citation_keywords\"]")
    (getMetaContent d "meta[name=\"keywords\"]")
  if truthy keywords then splitTags (keywords.getD "") else baseExtractTags d

/-!
## Registry

`registry.ts` holds the ordered list of all integrations and the three
registry queries. The per-integration identity data (`id`, `name`) of the
eight integrations under src/ is transcribed from their files; the
`contentScriptMatches` field is declared in the missing base class, and the
ten remaining integrations' modules are missing entirely, so those parts
are modelled from the spec (an integration is identity plus an ordered URL
match pattern list).
-/

structure RegIntegration where
  id : String
  name : String
  contentScriptMatches : List String
deriving DecidableEq

/-- Modelled from the spec: the `arxiv` integration module is not under
src/ (only its registry import is). -/
def arxivIntegration : RegIntegration :=
  ⟨"arxiv", "arXiv", ["*://arxiv.org/*"]⟩

/-- Modelled from the spec: the `openreview` integration module is not
under src/. -/
def openReviewIntegration : RegIntegration :=
  ⟨"openreview", "OpenReview", ["*://openreview.net/*"]⟩

/-- Modelled from the spec: the `nature` integration module is not under
src/. -/
def natureIntegration : RegIntegration :=
  ⟨"nature", "Nature", ["*://www.nature.com/*"]⟩

/-- Modelled from the spec: the `pnas` integration module is not under
src/. -/
def pnasIntegration : RegIntegration :=
  ⟨"pnas", "PNAS", ["*://www.pnas.org/*"]⟩

/-- Modelled from the spec: the `sciencedirect` integration module is not
under src/. -/
def scienceDirectIntegration : RegIntegration :=
  ⟨"sciencedirect", "ScienceDirect", ["*://www.sciencedirect.com/*"]⟩

/-- `SpringerIntegration` identity from source; content-script patterns
modelled from the spec (the field lives in the missing base class). -/
def springerIntegration : RegIntegration :=
  ⟨"springer", "Springer", ["*://link.springer.com/*"]⟩

/-- `IEEEIntegration` identity from source; content-script patterns
modelled from the spec. -/
def ieeeIntegration : RegIntegration :=
  ⟨"ieee", "IEEE Xplore", ["*://ieeexplore.ieee.org/*"]⟩

/-- `ACMIntegration` identity from source; content-script patterns
modelled from the spec. -/
def acmIntegration : RegIntegration :=
  ⟨"acm", "ACM Digital Library", ["*://dl.acm.org/*"]⟩

/-- `ACLIntegration` identity from source; content-script patterns
modelled from the spec. -/
def aclIntegration : RegIntegration :=
  ⟨"acl", "ACL Anthology", ["*://aclanthology.org/*", "*://aclweb.org/*"]⟩

/-- `NeurIPSIntegration` identity from source; content-script patterns
modelled from the spec. -/
def neuripsIntegration : RegIntegration :=
  ⟨"neurips", "NeurIPS", ["*://papers.nips.cc/*", "*://proceedings.neurips.cc/*"]⟩

/-- `CVFIntegration` identity from source; content-script patterns
modelled from the spec. -/
def cvfIntegration : RegIntegration :=
  ⟨"cvf", "CVF Open Access", ["*://openaccess.thecvf.com/*"]⟩

/-- Modelled from the spec: the `wiley` integration module is not under
src/. -/
def wileyIntegration : RegIntegration :=
  ⟨"wiley", "Wiley", ["*://onlinelibrary.wiley.com/*"]⟩

/-- Modelled from the spec: the `plos` integration module is not under
src/. -/
def plosIntegration : RegIntegration :=
  ⟨"plos", "PLOS", ["*://journals.plos.org/*"]⟩

/-- Modelled from the spec: the `biorxiv` integration module is not under
src/. -/
def bioRxivIntegration : RegIntegration :=
  ⟨"biorxiv", "bioRxiv", ["*://www.biorxiv.org/*"]⟩

/-- `MedRxivIntegration` identity from source; content-script patterns
modelled from the spec. -/
def medRxivIntegration : RegIntegration :=
  ⟨"medrxiv", "medRxiv", ["*://www.medrxiv.org/*"]⟩

/-- `SSRNIntegration` identity from source; content-script patterns
modelled from the spec. -/
def ssrnIntegration : RegIntegration :=
  ⟨"ssrn", "SSRN", ["*://ssrn.com/*", "*://papers.ssrn.com/*"]⟩

/-- Modelled from the spec: the `semanticscholar` integration module is
not under src/. -/
def semanticScholarIntegration : RegIntegration :=
  ⟨"semanticscholar", "Semantic Scholar", ["*://www.semanticscholar.org/*"]⟩

/-- Modelled from the spec: the `misc` integration module is not under
src/. -/
def miscIntegration : RegIntegration :=
  ⟨"misc", "Misc", ["<all_urls>"]⟩

/-- The registry list, in the declared order of `registry.ts`. -/
def sourceIntegrations : List RegIntegration :=
  [arxivIntegration,
   openReviewIntegration,
   natureIntegration,
   pnasIntegration,
   scienceDirectIntegration,
   springerIntegration,
   ieeeIntegration,
   acmIntegration,
   aclIntegration,
   neuripsIntegration,
   cvfIntegration,
   wileyIntegration,
   plosIntegration,
   bioRxivIntegration,
   medRxivIntegration,
   ssrnIntegration,
   semanticScholarIntegration,
   miscIntegration]

def getAllIntegrations : List RegIntegration := sourceIntegrations

/-- `registry.ts`: `sourceIntegrations.find(integration => integration.id === id)`. -/
def getIntegrationById (id : String) : Option RegIntegration :=
  sourceIntegrations.find? fun integration => integration.id == id

/-- `registry.ts`: `sourceIntegrations.flatMap(integration => integration.contentScriptMatches)`. -/
def getAllContentScriptMatches : List String :=
  sourceIntegrations.flatMap fun integration => integration.contentScriptMatches

/-!
## Concrete page documents used by counterexamples and witnesses
-/

/-- A page carrying no meta tags and no selector targets at all. -/
def emptyDoc : Doc := ⟨[], [], [], []⟩

/-- A page carrying only a Dublin-Core title (in every casing variant the
extractors query) and an Open-Graph title, but no citation title. -/
def dcOgDoc : Doc :=
  ⟨[("meta[property=\"og:title\"]", "OG value"),
    ("meta[name=\"DC.Title\"]", "DC value"),
    ("meta[name=\"dc.Title\"]", "DC value"),
    ("meta[name=\"dc.title\"]", "DC value")], [], [], []⟩

/-- A page carrying a citation title, an Open-Graph title and a
Dublin-Core title (in every casing variant) at once. -/
def allThreeDoc : Doc :=
  ⟨[("meta[name=\"citation_title\"]", "Citation value"),
    ("meta[property=\"og:title\"]", "OG value"),
    ("meta[name=\"DC.Title\"]", "DC value"),
    ("meta[name=\"dc.Title\"]", "DC value"),
    ("meta[name=\"dc.title\"]", "DC value")], [], [], []⟩

/-- A page with a non-empty `citation_keywords` meta value. -/
def keywordsDoc : Doc :=
  ⟨[("meta[name=\"citation_keywords\"]", " machine learning; vision ,, AI ")],
   [], [], []⟩

/-- The meta-tag selectors consulted (directly or through the base
defaults) by at least one of the eight specialized extractors. -/
def relevantMetaSelectors : List String :=
  ["meta[name=\"citation_title\"]", "meta[property=\"og:title\"]",
   "meta[name=\"DC.Title\"]", "meta[name=\"dc.Title\"]", "meta[name=\"dc.title\"]",
   "meta[name=\"citation_abstract\"]", "meta[name=\"description\"]",
   "meta[property=\"og:description\"]", "meta[name=\"dc.description\"]",
   "meta[name=\"citation_publication_date\"]", "meta[name=\"citation_online_date\"]",
   "meta[name=\"citation_date\"]", "meta[name=\"DC.Date\"]", "meta[name=\"dc.Date\"]",
   "meta[name=\"dc.date\"]", "meta[name=\"date\"]",
   "meta[name=\"citation_doi\"]", "meta[name=\"DC.Identifier\"]",
   "meta[name=\"dc.Identifier\"]", "meta[name=\"dc.identifier\"]", "meta[name=\"doi\"]",
   "meta[name=\"citation_journal_title\"]", "meta[name=\"citation_conference_title\"]",
   "meta[name=\"dc.Source\"]", "meta[name=\"prism.publicationName\"]",
   "meta[name=\"citation_keywords\"]", "meta[name=\"keywords\"]"]

/-- The `querySelectorAll` meta selectors consulted by the extractors. -/
def relevantMetaListSelectors : List String :=
  ["meta[name=\"citation_author\"]", "meta[name=\"dc.creator\"]",
   "meta[name=\"author\"]"]

/-- The single-element selectors consulted by the extractors. -/
def relevantSelSelectors : List String :=
  [".abstract", "#abstract", ".abstract-text"]

/-- The element-list selectors consulted by the extractors. -/
def relevantSelListSelectors : List String :=
  [".author a, .author span", ".author a, #authors b",
   ".authors-info .author span", ".keywords .keyword"]

/-!
## Lemmas about the matcher and the registry
-/

/-- A successful JS match carries exactly `numGroups` capture entries. -/
theorem jsMatch_groups_length {r : JsRegex} {s : String} {m : List String}
    (h : jsMatch r s = some m) : m.length = numGroups r := by
  unfold jsMatch at h
  cases hs : searchFrom (flattenR r) s.data with
  | none => rw [hs] at h; simp at h
  | some st =>
    rw [hs] at h
    simp only [Option.map_some'] at h
    injection h with h
    subst h
    simp

/-- Mapping a per-match post-processing through `findSome?` commutes with
applying it afterwards, whenever the two post-processings agree on every
match that can actually arise. -/
theorem findSome?_map_congr {α β γ : Type _} (l : List α) (f : α → Option β)
    (g₁ g₂ : β → γ) (h : ∀ p ∈ l, ∀ m, f p = some m → g₁ m = g₂ m) :
    (l.findSome? fun p => (f p).map g₁) = (l.findSome? f).map g₂ := by
  induction l with
  | nil => simp
  | cons a t ih =>
    rw [List.findSome?_cons, List.findSome?_cons]
    cases hfa : f a with
    | none =>
      simp only [hfa, Option.map_none']
      exact ih fun p hp m hm => h p (List.mem_cons_of_mem a hp) m hm
    | some m =>
      simp only [hfa, Option.map_some']
      rw [h a (List.mem_cons_self a t) m hfa]

theorem medRxiv_paperId_eq_spec (url : String) :
    medRxivExtractPaperId url = extractPaperIdSpec medRxivUrlPatterns url := by
  refine findSome?_map_congr _ _ _ _ ?_
  intro p hp m hm
  have hl := jsMatch_groups_length hm
  have hg : numGroups p = 1 := by
    simp only [medRxivUrlPatterns, List.mem_cons, List.mem_singleton,
      List.not_mem_nil, or_false] at hp
    rcases hp with h' | h' <;> subst h' <;> rfl
  rw [hg] at hl
  match m, hl with
  | [a], _ => rfl

theorem neurips_paperId_eq_spec (url : String) :
    neuripsExtractPaperId url = extractPaperIdSpec neuripsUrlPatterns url := by
  refine findSome?_map_congr _ _ _ _ ?_
  intro p hp m hm
  have hl := jsMatch_groups_length hm
  have hg : numGroups p = 2 := by
    simp only [neuripsUrlPatterns, List.mem_cons, List.mem_singleton,
      List.not_mem_nil, or_false] at hp
    rcases hp with h' | h' | h' | h' | h' <;> subst h' <;> rfl
  rw [hg] at hl
  match m, hl with
  | [a, b], _ => rfl

theorem cvf_paperId_eq_spec (url : String) :
    cvfExtractPaperId url = extractPaperIdSpec cvfUrlPatterns url := by
  refine findSome?_map_congr _ _ _ _ ?_
  intro p hp m hm
  have hl := jsMatch_groups_length hm
  have hg : numGroups p = 3 := by
    simp only [cvfUrlPatterns, List.mem_cons, List.mem_singleton,
      List.not_mem_nil, or_false] at hp
    rcases hp with h' | h' <;> subst h' <;> rfl
  rw [hg] at hl
  match m, hl with
  | [a, b, c], _ => rfl

theorem acm_paperId_eq_spec (url : String) :
    acmExtractPaperId url = extractPaperIdSpec acmUrlPatterns url := by
  refine findSome?_map_congr _ _ _ _ ?_
  intro p hp m hm
  have hl := jsMatch_groups_length hm
  have hg : numGroups p = 1 := by
    simp only [acmUrlPatterns, List.mem_cons, List.mem_singleton,
      List.not_mem_nil, or_false] at hp
    rcases hp with h' | h' | h' <;> subst h' <;> rfl
  rw [hg] at hl
  match m, hl with
  | [a], _ => rfl

theorem ssrn_paperId_eq_spec (url : String) :
    ssrnExtractPaperId url = extractPaperIdSpec ssrnUrlPatterns url := by
  refine findSome?_map_congr _ _ _ _ ?_
  intro p hp m hm
  have hl := jsMatch_groups_length hm
  have hg : numGroups p = 1 := by
    simp only [ssrnUrlPatterns, List.mem_cons, List.mem_singleton,
      List.not_mem_nil, or_false] at hp
    rcases hp with h' | h' <;> subst h' <;> rfl
  rw [hg] at hl
  match m, hl with
  | [a], _ => rfl

theorem springer_paperId_eq_spec (url : String) :
    springerExtractPaperId url = extractPaperIdSpec springerUrlPatterns url := by
  refine findSome?_map_congr _ _ _ _ ?_
  intro p hp m hm
  have hl := jsMatch_groups_length hm
  have hg : numGroups p = 1 := by
    simp only [springerUrlPatterns, List.mem_cons, List.mem_singleton,
      List.not_mem_nil, or_false] at hp
    rcases hp with h' | h' <;> subst h' <;> rfl
  rw [hg] at hl
  match m, hl with
  | [a], _ => rfl

theorem ieee_paperId_eq_spec (url : String) :
    ieeeExtractPaperId url = extractPaperIdSpec ieeeUrlPatterns url := by
  refine findSome?_map_congr _ _ _ _ ?_
  intro p hp m hm
  have hl := jsMatch_groups_length hm
  have hg : numGroups p = 1 := by
    simp only [ieeeUrlPatterns, List.mem_cons, List.mem_singleton,
      List.not_mem_nil, or_false] at hp
    rcases hp with h' | h' <;> subst h' <;> rfl
  rw [hg] at hl
  match m, hl with
  | [a], _ => rfl

theorem acl_paperId_eq_spec (url : String) :
    aclExtractPaperId url = extractPaperIdSpec aclUrlPatterns url := by
  refine findSome?_map_congr _ _ _ _ ?_
  intro p hp m hm
  have hl := jsMatch_groups_length hm
  have hg : numGroups p = 1 := by
    simp only [aclUrlPatterns, List.mem_cons, List.mem_singleton,
      List.not_mem_nil, or_false] at hp
    rcases hp with h' | h' <;> subst h' <;> rfl
  rw [hg] at hl
  match m, hl with
  | [a], _ => rfl

/-- Claim C1: for every integration and every URL, `extractPaperId`
behaves exactly as the spec's algorithm: iterate `urlPatterns` in
declared order; return the first successful match's captured group(s),
joined with `-` when the identifier is composite (year-hash for NeurIPS,
conference-year-slug for CVF); and the spec algorithm (hence each
integration) returns none when no pattern matches the URL. -/
theorem extractPaperId_follows_spec (url : String) :
    medRxivExtractPaperId url = extractPaperIdSpec medRxivUrlPatterns url ∧
    neuripsExtractPaperId url = extractPaperIdSpec neuripsUrlPatterns url ∧
    cvfExtractPaperId url = extractPaperIdSpec cvfUrlPatterns url ∧
    acmExtractPaperId url = extractPaperIdSpec acmUrlPatterns url ∧
    ssrnExtractPaperId url = extractPaperIdSpec ssrnUrlPatterns url ∧
    springerExtractPaperId url = extractPaperIdSpec springerUrlPatterns url ∧
    ieeeExtractPaperId url = extractPaperIdSpec ieeeUrlPatterns url ∧
    aclExtractPaperId url = extractPaperIdSpec aclUrlPatterns url ∧
    ∀ ps : List JsRegex, (∀ p ∈ ps, jsMatch p url = none) →
      extractPaperIdSpec ps url = none := by
  refine ⟨medRxiv_paperId_eq_spec url, neurips_paperId_eq_spec url,
    cvf_paperId_eq_spec url, acm_paperId_eq_spec url, ssrn_paperId_eq_spec url,
    springer_paperId_eq_spec url, ieee_paperId_eq_spec url,
    acl_paperId_eq_spec url, ?_⟩
  intro ps h
  unfold extractPaperIdSpec
  rw [List.findSome?_eq_none_iff.mpr h]
  rfl

/-- Witness for C1 at a URL no medRxiv pattern matches. -/
theorem extractPaperId_follows_spec_witness :
    medRxivExtractPaperId "https://example.org/none" = none ∧
    extractPaperIdSpec medRxivUrlPatterns "https://example.org/none" = none := by
  have h := extractPaperId_follows_spec "https://example.org/none"
  have hn : extractPaperIdSpec medRxivUrlPatterns "https://example.org/none" = none :=
    h.2.2.2.2.2.2.2.2 medRxivUrlPatterns (by decide)
  exact ⟨h.1.trans hn, hn⟩

/-- Claim C3 counterexample: on a page with none of the relevant tags the
medRxiv extractor's `extractJournalName` returns the hard-coded literal
"medRxiv", not an empty string as the claim asserts for every accessor. -/
theorem accessors_empty_page_cex :
    medrxivExtractJournalName emptyDoc = "medRxiv" ∧
    ¬ medrxivExtractJournalName emptyDoc = "" := by
  decide

/-- Claim C3 (amended): bound to a page with none of the relevant meta
tags or selector targets, every accessor of every specialized extractor
returns an empty string (empty list for tags) and never throws — except
`extractJournalName` of the medRxiv, SSRN and NeurIPS extractors, which
returns the hard-coded publisher literal. (All accessors are total
functions in this embedding, so none can throw.) -/
theorem accessors_empty_page (d : Doc)
    (h1 : ∀ sel ∈ relevantMetaSelectors, getMetaContent d sel = none)
    (h2 : ∀ sel ∈ relevantMetaListSelectors, queryAllContents d sel = [])
    (h3 : ∀ sel ∈ relevantSelSelectors, querySelText d sel = none)
    (h4 : ∀ sel ∈ relevantSelListSelectors, queryAllTexts d sel = []) :
    (medrxivExtractTitle d = "" ∧ medrxivExtractAuthors d = "" ∧
     medrxivExtractDescription d = "" ∧ medrxivExtractPublishedDate d = "" ∧
     medrxivExtractDoi d = "" ∧ medrxivExtractJournalName d = "medRxiv" ∧
     medrxivExtractTags d = []) ∧
    (neuripsExtractTitle d = "" ∧ neuripsExtractAuthors d = "" ∧
     neuripsExtractDescription d = "" ∧ neuripsExtractPublishedDate d = "" ∧
     neuripsExtractDoi d = "" ∧ neuripsExtractJournalName d = "NeurIPS" ∧
     neuripsExtractTags d = []) ∧
    (cvfExtractTitle d = "" ∧ cvfExtractAuthors d = "" ∧
     cvfExtractDescription d = "" ∧ cvfExtractPublishedDate d = "" ∧
     cvfExtractDoi d = "" ∧ cvfExtractJournalName d = "" ∧
     cvfExtractTags d = []) ∧
    (ssrnExtractTitle d = "" ∧ ssrnExtractAuthors d = "" ∧
     ssrnExtractDescription d = "" ∧ ssrnExtractPublishedDate d = "" ∧
     ssrnExtractDoi d = "" ∧ ssrnExtractJournalName d = "SSRN" ∧
     ssrnExtractTags d = []) ∧
    (acmExtractTitle d = "" ∧ acmExtractAuthors d = "" ∧
     acmExtractDescription d = "" ∧ acmExtractPublishedDate d = "" ∧
     acmExtractDoi d = "" ∧ acmExtractJournalName d = "" ∧
     acmExtractTags d = []) ∧
    (springerExtractTitle d = "" ∧ springerExtractAuthors d = "" ∧
     springerExtractDescription d = "" ∧ springerExtractPublishedDate d = "" ∧
     springerExtractDoi d = "" ∧ springerExtractJournalName d = "" ∧
     springerExtractTags d = []) ∧
    (ieeeExtractTitle d = "" ∧ ieeeExtractAuthors d = "" ∧
     ieeeExtractDescription d = "" ∧ ieeeExtractPublishedDate d = "" ∧
     ieeeExtractDoi d = "" ∧ ieeeExtractJournalName d = "" ∧
     ieeeExtractTags d = []) ∧
    (aclExtractTitle d = "" ∧ aclExtractAuthors d = "" ∧
     aclExtractDescription d = "" ∧ aclExtractPublishedDate d = "" ∧
     aclExtractDoi d = "" ∧ aclExtractJournalName d = "" ∧
     aclExtractTags d = []) := by
  have m01 := h1 "meta[name=\"citation_title\"]" (by decide)
  have m02 := h1 "meta[property=\"og:title\"]" (by decide)
  have m03 := h1 "meta[name=\"DC.Title\"]" (by decide)
  have m04 := h1 "meta[name=\"dc.Title\"]" (by decide)
  have m05 := h1 "meta[name=\"dc.title\"]" (by decide)
  have m06 := h1 "meta[name=\"citation_abstract\"]" (by decide)
  have m07 := h1 "meta[name=\"description\"]" (by decide)
  have m08 := h1 "meta[property=\"og:description\"]" (by decide)
  have m09 := h1 "meta[name=\"dc.description\"]" (by decide)
  have m10 := h1 "meta[name=\"citation_publication_date\"]" (by decide)
  have m11 := h1 "meta[name=\"citation_online_date\"]" (by decide)
  have m12 := h1 "meta[name=\"citation_date\"]" (by decide)
  have m13 := h1 "meta[name=\"DC.Date\"]" (by decide)
  have m13b := h1 "meta[name=\"dc.Date\"]" (by decide)
  have m14 := h1 "meta[name=\"dc.date\"]" (by decide)
  have m15 := h1 "meta[name=\"date\"]" (by decide)
  have m16 := h1 "meta[name=\"citation_doi\"]" (by decide)
  have m17 := h1 "meta[name=\"DC.Identifier\"]" (by decide)
  have m17b := h1 "meta[name=\"dc.Identifier\"]" (by decide)
  have m18 := h1 "meta[name=\"dc.identifier\"]" (by decide)
  have m19 := h1 "meta[name=\"doi\"]" (by decide)
  have m20 := h1 "meta[name=\"citation_journal_title\"]" (by decide)
  have m21 := h1 "meta[name=\"citation_conference_title\"]" (by decide)
  have m22 := h1 "meta[name=\"dc.Source\"]" (by decide)
  have m23 := h1 "meta[name=\"prism.publicationName\"]" (by decide)
  have m24 := h1 "meta[name=\"citation_keywords\"]" (by decide)
  have m25 := h1 "meta[name=\"keywords\"]" (by decide)
  have q01 := h2 "meta[name=\"citation_author\"]" (by decide)
  have q02 := h2 "meta[name=\"dc.creator\"]" (by decide)
  have q03 := h2 "meta[name=\"author\"]" (by decide)
  have s01 := h3 ".abstract" (by decide)
  have s02 := h3 "#abstract" (by decide)
  have s03 := h3 ".abstract-text" (by decide)
  have t01 := h4 ".author a, .author span" (by decide)
  have t02 := h4 ".author a, #authors b" (by decide)
  have t03 := h4 ".authors-info .author span" (by decide)
  have t04 := h4 ".keywords .keyword" (by decide)
  simp [medrxivExtractTitle, medrxivExtractAuthors, medrxivExtractDescription,
    medrxivExtractPublishedDate, medrxivExtractDoi, medrxivExtractJournalName,
    medrxivExtractTags, neuripsExtractTitle, neuripsExtractAuthors,
    neuripsExtractDescription, neuripsExtractPublishedDate, neuripsExtractDoi,
    neuripsExtractJournalName, neuripsExtractTags, cvfExtractTitle,
    cvfExtractAuthors, cvfExtractDescription, cvfExtractPublishedDate,
    cvfExtractDoi, cvfExtractJournalName, cvfExtractTags, ssrnExtractTitle,
    ssrnExtractAuthors, ssrnExtractDescription, ssrnExtractPublishedDate,
    ssrnExtractDoi, ssrnExtractJournalName, ssrnExtractTags, acmExtractTitle,
    acmExtractAuthors, acmExtractDescription, acmExtractPublishedDate,
    acmExtractDoi, acmExtractJournalName, acmExtractTags, springerExtractTitle,
    springerExtractAuthors, springerExtractDescription,
    springerExtractPublishedDate, springerExtractDoi, springerExtractJournalName,
    springerExtractTags, ieeeExtractTitle, ieeeExtractAuthors,
    ieeeExtractDescription, ieeeExtractPublishedDate, ieeeExtractDoi,
    ieeeExtractJournalName, ieeeExtractTags, aclExtractTitle, aclExtractAuthors,
    aclExtractDescription, aclExtractPublishedDate, aclExtractDoi,
    aclExtractJournalName, aclExtractTags, baseExtractTitle, baseExtractAuthors,
    baseExtractDescription, baseExtractPublishedDate, baseExtractDoi,
    baseExtractJournalName, baseExtractTags, truthy, jsOr, orStr,
    metaContentsTruthy, textsTruthy,
    String.intercalate,
    m01, m02, m03, m04, m05, m06, m07, m08, m09, m10, m11, m12, m13, m13b, m14,
    m15, m16, m17, m17b, m18, m19, m20, m21, m22, m23, m24, m25, q01, q02, q03,
    s01, s02, s03, t01, t02, t03, t04]

/-- Witness for C3 (amended) at the fully empty page. -/
theorem accessors_empty_page_witness :
    medrxivExtractTitle emptyDoc = "" ∧ medrxivExtractJournalName emptyDoc = "medRxiv" ∧
    ssrnExtractJournalName emptyDoc = "SSRN" ∧ ieeeExtractTags emptyDoc = [] := by
  have h := accessors_empty_page emptyDoc (by decide) (by decide) (by decide) (by decide)
  exact ⟨h.1.1, h.1.2.2.2.2.2.1, h.2.2.2.1.2.2.2.2.2.1, h.2.2.2.2.2.2.1.2.2.2.2.2.2⟩

/-- Claim C4 counterexample: on a page carrying only an Open-Graph title
and a Dublin-Core title, the medRxiv extractor returns the Open-Graph
value, not the Dublin-Core value the claim's ordering predicts. -/
theorem title_fallback_order_cex :
    medrxivExtractTitle dcOgDoc = "OG value" ∧
    ¬ medrxivExtractTitle dcOgDoc = "DC value" := by
  decide

/-- Claim C4 (amended): every specialized extractor field whose fallback
chain includes a citation tag, an Open-Graph tag and a Dublin-Core tag
(the medRxiv, ACM and Springer title chains) tries the citation tag first,
then the Open-Graph tag, then the Dublin-Core tag: on a page carrying all
three the citation value is returned, and on a page carrying only the
latter two the Open-Graph value is returned. -/
theorem title_fallback_order (d1 : Doc) (c : String)
    (hc : getMetaContent d1 "meta[name=\"citation_title\"]" = some c)
    (hc0 : c ≠ "")
    (h1og : truthy (getMetaContent d1 "meta[property=\"og:title\"]") = true)
    (h1da : truthy (getMetaContent d1 "meta[name=\"DC.Title\"]") = true)
    (h1db : truthy (getMetaContent d1 "meta[name=\"dc.Title\"]") = true)
    (h1dc : truthy (getMetaContent d1 "meta[name=\"dc.title\"]") = true)
    (d2 : Doc) (o : String)
    (h2c : truthy (getMetaContent d2 "meta[name=\"citation_title\"]") = false)
    (h2o : getMetaContent d2 "meta[property=\"og:title\"]" = some o)
    (ho0 : o ≠ "")
    (h2da : truthy (getMetaContent d2 "meta[name=\"DC.Title\"]") = true)
    (h2db : truthy (getMetaContent d2 "meta[name=\"dc.Title\"]") = true)
    (h2dc : truthy (getMetaContent d2 "meta[name=\"dc.title\"]") = true) :
    (medrxivExtractTitle d1 = c ∧ acmExtractTitle d1 = c ∧
     springerExtractTitle d1 = c) ∧
    (medrxivExtractTitle d2 = o ∧ acmExtractTitle d2 = o ∧
     springerExtractTitle d2 = o) := by
  have htc : truthy (some c) = true := by simp [truthy, hc0]
  have hto : truthy (some o) = true := by simp [truthy, ho0]
  refine ⟨⟨?_, ?_, ?_⟩, ?_, ?_, ?_⟩ <;>
    simp [medrxivExtractTitle, acmExtractTitle, springerExtractTitle,
      jsOr, orStr, hc, h2c, h2o, htc, hto]

/-- Witness for C4 (amended) at concrete pages. -/
theorem title_fallback_order_witness :
    medrxivExtractTitle allThreeDoc = "Citation value" ∧
    medrxivExtractTitle dcOgDoc = "OG value" := by
  have h := title_fallback_order allThreeDoc "Citation value" (by decide) (by decide)
    (by decide) (by decide) (by decide) (by decide) dcOgDoc "OG value" (by decide)
    (by decide) (by decide) (by decide) (by decide) (by decide)
  exact ⟨h.1.1, h.2.1⟩

/-- Claim C5: on a page carrying both the publisher-specific
`citation_title` tag and the generic `og:title` tag, every specialized
extractor's `extractTitle` returns the publisher-specific value. -/
theorem specific_tag_preferred (d : Doc) (t : String)
    (h : getMetaContent d "meta[name=\"citation_title\"]" = some t)
    (h0 : t ≠ "")
    (hog : truthy (getMetaContent d "meta[property=\"og:title\"]") = true) :
    medrxivExtractTitle d = t ∧ neuripsExtractTitle d = t ∧
    cvfExtractTitle d = t ∧ ssrnExtractTitle d = t ∧ acmExtractTitle d = t ∧
    springerExtractTitle d = t ∧ ieeeExtractTitle d = t ∧
    aclExtractTitle d = t := by
  have ht : truthy (some t) = true := by simp [truthy, h0]
  refine ⟨?_, ?_, ?_, ?_, ?_, ?_, ?_, ?_⟩ <;>
    simp [medrxivExtractTitle, neuripsExtractTitle, cvfExtractTitle,
      ssrnExtractTitle, acmExtractTitle, springerExtractTitle,
      ieeeExtractTitle, aclExtractTitle, jsOr, orStr, h, ht]

/-- Witness for C5 at a page carrying both tag families. -/
theorem specific_tag_preferred_witness :
    medrxivExtractTitle allThreeDoc = "Citation value" ∧
    ssrnExtractTitle allThreeDoc = "Citation value" ∧
    neuripsExtractTitle allThreeDoc = "Citation value" := by
  have h := specific_tag_preferred allThreeDoc "Citation value" (by decide)
    (by decide) (by decide)
  exact ⟨h.1, h.2.2.2.1, h.2.1⟩

/-- Claim C8: when the keywords chain (`citation_keywords`, else
`keywords`) holds a non-empty value `k`, every specialized extractor's
`extractTags` returns `k` split at every `,` and `;`, each piece trimmed,
empty pieces removed. -/
theorem tags_split_trim_filter (d : Doc) (k : String)
    (h : jsOr (getMetaContent d "meta[name=\"citation_keywords\"]")
      (getMetaContent d "meta[name=\"keywords\"]") = some k)
    (h0 : k ≠ "") :
    medrxivExtractTags d =
      ((jsSplit (fun c => c == ';' || c == ',') k).map jsTrim).filter
        (fun t => t != "") ∧
    neuripsExtractTags d =
      ((jsSplit (fun c => c == ';' || c == ',') k).map jsTrim).filter
        (fun t => t != "") ∧
    cvfExtractTags d =
      ((jsSplit (fun c => c == ';' || c == ',') k).map jsTrim).filter
        (fun t => t != "") ∧
    ssrnExtractTags d =
      ((jsSplit (fun c => c == ';' || c == ',') k).map jsTrim).filter
        (fun t => t != "") ∧
    acmExtractTags d =
      ((jsSplit (fun c => c == ';' || c == ',') k).map jsTrim).filter
        (fun t => t != "") ∧
    springerExtractTags d =
      ((jsSplit (fun c => c == ';' || c == ',') k).map jsTrim).filter
        (fun t => t != "") ∧
    ieeeExtractTags d =
      ((jsSplit (fun c => c == ';' || c == ',') k).map jsTrim).filter
        (fun t => t != "") ∧
    aclExtractTags d =
      ((jsSplit (fun c => c == ';' || c == ',') k).map jsTrim).filter
        (fun t => t != "") := by
  have ht : truthy (some k) = true := by simp [truthy, h0]
  refine ⟨?_, ?_, ?_, ?_, ?_, ?_, ?_, ?_⟩ <;>
    simp [medrxivExtractTags, neuripsExtractTags, cvfExtractTags,
      ssrnExtractTags, acmExtractTags, springerExtractTags, ieeeExtractTags,
      aclExtractTags, splitTags, h, ht]

/-- Witness for C8 at a concrete keywords value. -/
theorem tags_split_trim_filter_witness :
    medrxivExtractTags keywordsDoc = ["machine learning", "vision", "AI"] ∧
    ieeeExtractTags keywordsDoc = ["machine learning", "vision", "AI"] := by
  have h := tags_split_trim_filter keywordsDoc " machine learning; vision ,, AI "
    (by decide) (by decide)
  refine ⟨h.1.trans ?_, h.2.2.2.2.2.2.1.trans ?_⟩ <;> decide

/-- Claim C9: for the medRxiv, SSRN and NeurIPS extractors
`extractJournalName` always returns a non-empty string; when the
journal/conference meta tag is absent (or empty) it returns the hard-coded
publisher literal; and the trailing fallback to the base implementation is
unreachable — the result does not depend on the base value at all. -/
theorem journalName_hardcoded (d : Doc) :
    (medrxivExtractJournalName d ≠ "" ∧ ssrnExtractJournalName d ≠ "" ∧
     neuripsExtractJournalName d ≠ "") ∧
    (truthy (getMetaContent d "meta[name=\"citation_journal_title\"]") = false →
      medrxivExtractJournalName d = "medRxiv" ∧
      ssrnExtractJournalName d = "SSRN") ∧
    (truthy (getMetaContent d "meta[name=\"citation_conference_title\"]") = false →
      neuripsExtractJournalName d = "NeurIPS") ∧
    (∀ s : String,
      orStr (getMetaContent d "meta[name=\"citation_journal_title\"]")
        (orStr (some "medRxiv") s) = medrxivExtractJournalName d ∧
      orStr (getMetaContent d "meta[name=\"citation_journal_title\"]")
        (orStr (some "SSRN") s) = ssrnExtractJournalName d ∧
      orStr (getMetaContent d "meta[name=\"citation_conference_title\"]")
        (orStr (some "NeurIPS") s) = neuripsExtractJournalName d) := by
  refine ⟨⟨?_, ?_, ?_⟩, ?_, ?_, ?_⟩
  · by_cases hj : (getMetaContent d "meta[name=\"citation_journal_title\"]").getD "" = "" <;>
      simp [medrxivExtractJournalName, orStr, truthy, hj]
  · by_cases hj : (getMetaContent d "meta[name=\"citation_journal_title\"]").getD "" = "" <;>
      simp [ssrnExtractJournalName, orStr, truthy, hj]
  · by_cases hj : (getMetaContent d "meta[name=\"citation_conference_title\"]").getD "" = "" <;>
      simp [neuripsExtractJournalName, orStr, truthy, hj]
  · intro hj
    simp only [truthy, bne_iff_ne, ne_eq, decide_eq_false_iff_not,
      Decidable.not_not] at hj
    constructor <;> simp [medrxivExtractJournalName, ssrnExtractJournalName,
      orStr, truthy, hj]
  · intro hj
    simp only [truthy, bne_iff_ne, ne_eq, decide_eq_false_iff_not,
      Decidable.not_not] at hj
    simp [neuripsExtractJournalName, orStr, truthy, hj]
  · intro s
    refine ⟨?_, ?_, ?_⟩ <;>
      simp [medrxivExtractJournalName, ssrnExtractJournalName,
        neuripsExtractJournalName, orStr, truthy]

/-- Witness for C9 at the empty page. -/
theorem journalName_hardcoded_witness :
    truthy (getMetaContent emptyDoc "meta[name=\"citation_journal_title\"]") = false ∧
    medrxivExtractJournalName emptyDoc = "medRxiv" ∧
    ssrnExtractJournalName emptyDoc = "SSRN" ∧
    neuripsExtractJournalName emptyDoc = "NeurIPS" := by
  have h := journalName_hardcoded emptyDoc
  have h1 := h.2.1 (by decide)
  have h2 := h.2.2.1 (by decide)
  exact ⟨by decide, h1.1, h1.2, h2⟩

/-- The length of a flatMap is the sum of the per-element lengths. -/
theorem flatMap_length_sum {α β : Type _} (l : List α) (f : α → List β) :
    (l.flatMap f).length = (l.map fun a => (f a).length).sum := by
  induction l with
  | nil => rfl
  | cons a t ih => simp [List.flatMap_cons, ih]

theorem drop_append_length {α : Type _} (l1 l2 : List α) (n : Nat) :
    (l1 ++ l2).drop (l1.length + n) = l2.drop n := by
  induction l1 with
  | nil => simp
  | cons a t ih => simp [Nat.succ_add, ih]

/-- Each element's image occupies a contiguous slab of the flatMap, at the
offset given by the preceding elements' total length. -/
theorem flatMap_slab {α β : Type _} (f : α → List β) :
    ∀ (l : List α) (k : Nat) (h : k < l.length),
      ((l.flatMap f).drop (((l.take k).map fun a => (f a).length).sum)).take
          (f (l.get ⟨k, h⟩)).length =
        f (l.get ⟨k, h⟩) := by
  intro l
  induction l with
  | nil => intro k h; cases h
  | cons a t ih =>
    intro k h
    cases k with
    | zero =>
      simp [List.flatMap_cons, List.take_left (f a) (t.flatMap f)]
    | succ k =>
      have hk : k < t.length := Nat.lt_of_succ_lt_succ h
      have := ih k hk
      simpa [List.flatMap_cons, drop_append_length] using this

/-- Claim C6: `getAllContentScriptMatches()` is the order-preserving
concatenation of every registered integration's content-script match
patterns: its length is the sum over the registry of each integration's
pattern-list length, and the k-th integration's patterns appear
contiguously at the offset given by the preceding integrations. -/
theorem getAllContentScriptMatches_spec :
    getAllContentScriptMatches.length =
      (sourceIntegrations.map fun i => i.contentScriptMatches.length).sum ∧
    ∀ k (h : k < sourceIntegrations.length),
      ((getAllContentScriptMatches.drop
          (((sourceIntegrations.take k).map
            fun i => i.contentScriptMatches.length).sum)).take
          (sourceIntegrations.get ⟨k, h⟩).contentScriptMatches.length) =
        (sourceIntegrations.get ⟨k, h⟩).contentScriptMatches := by
  refine ⟨flatMap_length_sum sourceIntegrations _, ?_⟩
  intro k h
  exact flatMap_slab _ sourceIntegrations k h

/-- Witness for C6 at the first registry entry. -/
theorem getAllContentScriptMatches_spec_witness :
    getAllContentScriptMatches.length =
      (sourceIntegrations.map fun i => i.contentScriptMatches.length).sum ∧
    (getAllContentScriptMatches.drop 0).take 1 =
      arxivIntegration.contentScriptMatches := by
  exact ⟨getAllContentScriptMatches_spec.1,
    getAllContentScriptMatches_spec.2 0 (by decide)⟩

/-- A `find?` by id over a list with pairwise-distinct ids returns any
member whose id matches. -/
theorem find?_id_of_nodup (x : String) :
    ∀ (l : List RegIntegration), (l.map fun i => i.id).Nodup →
      ∀ I ∈ l, I.id = x → l.find? (fun i => i.id == x) = some I := by
  intro l
  induction l with
  | nil => intro _ I hI; cases hI
  | cons a t ih =>
    intro hn I hI hx
    rcases List.mem_cons.mp hI with rfl | hIt
    · have : (I.id == x) = true := by simp [hx]
      simp [List.find?_cons, this]
    · have hn' : (∀ i ∈ t, ¬ i.id = a.id) ∧ (t.map fun i => i.id).Nodup := by
        simpa using hn
      have hax : ¬ a.id = x := by
        intro hccl
        exact hn'.1 I hIt (hx.trans hccl.symm)
      have hfa : (a.id == x) = false := by simp [hax]
      rw [List.find?_cons, hfa]
      exact ih hn'.2 I hIt hx

/-- Claim C7: `getIntegrationById` returns none when no registered
integration carries the id, and otherwise returns exactly the registered
integration whose `id` field equals the argument. -/
theorem getIntegrationById_spec (x : String) (I : RegIntegration) :
    ((∀ i ∈ sourceIntegrations, i.id ≠ x) → getIntegrationById x = none) ∧
    (getIntegrationById x = some I ↔ I ∈ sourceIntegrations ∧ I.id = x) := by
  constructor
  · intro h
    unfold getIntegrationById
    rw [List.find?_eq_none]
    intro i hi
    simpa using h i hi
  · constructor
    · intro h
      refine ⟨List.mem_of_find?_eq_some h, ?_⟩
      have := List.find?_some h
      simpa using this
    · rintro ⟨hI, hx⟩
      exact find?_id_of_nodup x sourceIntegrations (by decide) I hI hx

/-- Witness for C7 at an unknown and a known id. -/
theorem getIntegrationById_spec_witness :
    getIntegrationById "unknown-id" = none ∧
    getIntegrationById "medrxiv" = some medRxivIntegration := by
  exact ⟨(getIntegrationById_spec "unknown-id" medRxivIntegration).1 (by decide),
    (getIntegrationById_spec "medrxiv" medRxivIntegration).2.mpr ⟨by decide, rfl⟩⟩

/-!
## Symbolic evaluation lemmas for the matcher

These drive the universally quantified URL-family claims: they let a run
of the matcher be traced through literal segments, capture-group
boundaries and greedy quantifier steps over partially symbolic input.
-/

theorem data_append (a b : String) : (a ++ b).data = a.data ++ b.data := rfl

theorem asString_eq (l : List Char) (s : String) (h : l = s.data) :
    l.asString = s := by subst h; rfl

theorem runItems_nil_states (items : List FItem) :
    runItems items ([] : List MSt) = [] := by
  induction items with
  | nil => rfl
  | cons it rest ih => simp [runItems, ih]

theorem runItems_append_states (items : List FItem) (s t : List MSt) :
    runItems items (s ++ t) = runItems items s ++ runItems items t := by
  induction items generalizing s t with
  | nil => rfl
  | cons it rest ih => simp [runItems, ih]

/-- If the highest-priority state already yields a result, lower-priority
states cannot change the head of the exploration order. -/
theorem head_first {items : List FItem} {st : MSt} {rest : List MSt} {fin : MSt}
    (h : (runItems items [st]).head? = some fin) :
    (runItems items (st :: rest)).head? = some fin := by
  have : st :: rest = [st] ++ rest := rfl
  rw [this, runItems_append_states, List.head?_append, h]
  rfl

theorem runItems_cons_states (it : FItem) (items : List FItem) (st : MSt) :
    runItems (it :: items) [st] = runItems items (stepItem it st) := by
  rw [runItems]
  simp

theorem runItems_openG (items : List FItem) (r : List Char) (acc : Option (List Char))
    (gs : List (List Char)) :
    runItems (.openG :: items) [⟨r, acc, gs⟩] = runItems items [⟨r, some [], gs⟩] := rfl

theorem runItems_closeG (items : List FItem) (r : List Char) (acc : Option (List Char))
    (gs : List (List Char)) :
    runItems (.closeG :: items) [⟨r, acc, gs⟩] =
      runItems items [⟨r, none, gs ++ [acc.getD []]⟩] := rfl

theorem stepItem_lit (a : Atom) (c : Char) (r : List Char) (acc : Option (List Char))
    (gs : List (List Char)) (h : a.test c = true) :
    stepItem (.fatom a .one) ⟨c :: r, acc, gs⟩ = [⟨r, acc.map (· ++ [c]), gs⟩] := by
  simp [stepItem, atomMax, quantMin, h, descList, List.range_succ, consumeN]

/-- Consume a single literal character. -/
theorem runItems_lit (a : Atom) (c : Char) (items : List FItem) (r : List Char)
    (acc : Option (List Char)) (gs : List (List Char)) (h : a.test c = true) :
    runItems (.fatom a .one :: items) [⟨c :: r, acc, gs⟩] =
      runItems items [⟨r, acc.map (· ++ [c]), gs⟩] := by
  rw [runItems_cons_states, stepItem_lit a c r acc gs h]

/-- Consume a whole literal segment. -/
theorem runItems_lits (cs : List Char) (items : List FItem) (R : List Char)
    (acc : Option (List Char)) (gs : List (List Char)) :
    runItems (litsF cs ++ items) [⟨cs ++ R, acc, gs⟩] =
      runItems items [⟨R, acc.map (· ++ cs), gs⟩] := by
  induction cs generalizing acc with
  | nil =>
    have : acc.map (· ++ ([] : List Char)) = acc := by cases acc <;> simp
    simp [litsF, this]
  | cons c cs ih =>
    have hl : litsF (c :: cs) ++ items = .fatom (.chr c) .one :: (litsF cs ++ items) := rfl
    rw [hl, List.cons_append,
      runItems_lit (.chr c) c (litsF cs ++ items) (cs ++ R) acc gs
        (by simp [Atom.test]), ih]
    have : (acc.map (· ++ [c])).map (· ++ cs) = acc.map (· ++ (c :: cs)) := by
      cases acc <;> simp
    rw [this]

theorem runLen_stop {p : Char → Bool} {xs : List Char} {y : Char} (r : List Char)
    (hxs : ∀ c ∈ xs, p c = true) (hy : p y = false) :
    runLen p (xs ++ y :: r) = xs.length := by
  induction xs with
  | nil => simp [runLen, hy]
  | cons c cs ih =>
    have hc : p c = true := hxs c (List.mem_cons_self c cs)
    rw [List.cons_append, runLen, hc, if_pos rfl,
      ih fun c hmem => hxs c (List.mem_cons_of_mem _ hmem), List.length_cons]

theorem runLen_all {p : Char → Bool} {xs : List Char}
    (hxs : ∀ c ∈ xs, p c = true) : runLen p xs = xs.length := by
  induction xs with
  | nil => rfl
  | cons c cs ih =>
    have hc : p c = true := hxs c (List.mem_cons_self c cs)
    rw [runLen, hc, if_pos rfl,
      ih fun c hmem => hxs c (List.mem_cons_of_mem _ hmem), List.length_cons]

theorem descList_cons (mx lo : Nat) (h : lo ≤ mx) :
    ∃ tl, descList mx lo = mx :: tl := by
  have hs : mx + 1 - lo = (mx - lo) + 1 := by omega
  refine ⟨(List.range (mx - lo)).map (fun i => mx - (i + 1)), ?_⟩
  rw [descList, hs, List.range_succ_eq_map]
  simp [List.map_map, Function.comp]

/-- Greedy quantifier step: when the maximal consumable run is `xs` and it
meets the quantifier's minimum, the greedy alternative consumes exactly
`xs`, and a successful continuation from there fixes the overall result. -/
theorem step_quant_head {a : Atom} {q : Quant} {xs R : List Char}
    {acc : Option (List Char)} {gs : List (List Char)} {items : List FItem}
    {fin : MSt}
    (hmax : atomMax a q (xs ++ R) = xs.length)
    (hmin : quantMin q ≤ xs.length)
    (hnext : (runItems items [⟨R, acc.map (· ++ xs), gs⟩]).head? = some fin) :
    (runItems (.fatom a q :: items) [⟨xs ++ R, acc, gs⟩]).head? = some fin := by
  obtain ⟨tl, htl⟩ := descList_cons xs.length (quantMin q) hmin
  have hstep : stepItem (.fatom a q) ⟨xs ++ R, acc, gs⟩ =
      ⟨R, acc.map (· ++ xs), gs⟩ :: tl.map (consumeN ⟨xs ++ R, acc, gs⟩) := by
    show (if atomMax a q (xs ++ R) < quantMin q then []
      else (descList (atomMax a q (xs ++ R)) (quantMin q)).map
        (consumeN ⟨xs ++ R, acc, gs⟩)) = _
    rw [hmax, if_neg (Nat.not_lt.mpr hmin), htl, List.map_cons]
    congr 1
    simp [consumeN, List.take_left, List.drop_left]
  rw [runItems_cons_states, hstep]
  exact head_first hnext

/-- A mismatching mandatory first atom makes the whole match fail. -/
theorem matchFlat_lit_fail {a : Atom} {c : Char} (items : List FItem)
    (r : List Char) (acc : Option (List Char)) (gs : List (List Char))
    (h : a.test c = false) :
    matchFlat (.fatom a .one :: items) ⟨c :: r, acc, gs⟩ = none := by
  unfold matchFlat
  rw [runItems_cons_states]
  have hstep : stepItem (.fatom a .one) ⟨c :: r, acc, gs⟩ = [] := by
    simp [stepItem, atomMax, quantMin, h]
  rw [hstep, runItems_nil_states]
  rfl

/-- Unfolding equation of `searchFrom` at a non-empty input. -/
theorem searchFrom_cons_eq (items : List FItem) (c : Char) (t : List Char) :
    searchFrom items (c :: t) =
      match matchFlat items ⟨c :: t, none, []⟩ with
      | some st => some st
      | none => searchFrom items t := rfl

/-- Leftmost search skips every position whose character cannot begin a
match of a pattern opening with a mandatory literal atom. -/
theorem searchFrom_skip {a : Atom} (items : List FItem) (cs R : List Char)
    (h : ∀ c ∈ cs, a.test c = false) :
    searchFrom (.fatom a .one :: items) (cs ++ R) =
      searchFrom (.fatom a .one :: items) R := by
  induction cs with
  | nil => rfl
  | cons c cs ih =>
    have hc : a.test c = false := h c (List.mem_cons_self c cs)
    have hfail := matchFlat_lit_fail items (cs ++ R) none [] hc
    rw [List.cons_append, searchFrom_cons_eq, hfail]
    exact ih fun c hmem => h c (List.mem_cons_of_mem _ hmem)

/-- When the pattern matches right here, the leftmost search returns that
match. -/
theorem searchFrom_found {items : List FItem} {c : Char} {t : List Char}
    {fin : MSt} (h : matchFlat items ⟨c :: t, none, []⟩ = some fin) :
    searchFrom items (c :: t) = some fin := by
  simp [searchFrom, h]

theorem medP1_flat_head :
    flattenR medRxivP1 =
      .fatom (.chr 'm') .one ::
        (litsF "edrxiv.org/content/".data ++
          (.openG :: (litsF "10.".data ++
            (.fatom digitCls .plus ::
              .fatom (.chr '/') .one ::
                .fatom medTailCls .plus ::
                  .closeG :: [.fatom (.chr 'v') .opt, .fatom digitCls .star])))) := rfl

theorem digitCls_test (c : Char) : Atom.test digitCls c = c.isDigit := by
  simp [digitCls, Atom.test, CSet.test, CAtom.test]


theorem medTailCls_v : Atom.test medTailCls 'v' = false := by decide

theorem medrxiv_match_core (n t ver : String)
    (hn1 : n.data ≠ []) (hn2 : ∀ c ∈ n.data, c.isDigit = true)
    (ht1 : t.data ≠ []) (htcls : ∀ c ∈ t.data, Atom.test medTailCls c = true)
    (hv : ∀ c ∈ ver.data, c.isDigit = true) :
    matchFlat (flattenR medRxivP1)
      ⟨"medrxiv.org/content/".data ++
        ("10.".data ++ (n.data ++ ('/' :: (t.data ++ ('v' :: ver.data))))),
       none, []⟩ =
      some ⟨[], none, [(("10.".data ++ n.data) ++ ['/']) ++ t.data]⟩ := by
  unfold matchFlat
  have hsh : flattenR medRxivP1 =
      litsF "medrxiv.org/content/".data ++
        (.openG :: (litsF "10.".data ++
          (.fatom digitCls .plus ::
            .fatom (.chr '/') .one ::
              .fatom medTailCls .plus ::
                .closeG :: [.fatom (.chr 'v') .opt, .fatom digitCls .star]))) := rfl
  rw [hsh, runItems_lits, runItems_openG, runItems_lits]
  simp only [Option.map_none', Option.map_some', List.nil_append]
  have hmax1 : atomMax digitCls .plus (n.data ++ ('/' :: (t.data ++ ('v' :: ver.data)))) =
      n.data.length := by
    show runLen digitCls.test _ = _
    have : ∀ c ∈ n.data, digitCls.test c = true := by
      intro c hc; rw [digitCls_test]; exact hn2 c hc
    exact runLen_stop _ this (by rw [digitCls_test]; decide)
  refine step_quant_head hmax1 (List.length_pos.mpr hn1) ?_
  rw [runItems_lit (.chr '/') '/' _ _ _ _ (by decide)]
  simp only [Option.map_some']
  have hmax2 : atomMax medTailCls .plus (t.data ++ ('v' :: ver.data)) =
      t.data.length := by
    show runLen medTailCls.test _ = _
    exact runLen_stop _ htcls medTailCls_v
  refine step_quant_head hmax2 (List.length_pos.mpr ht1) ?_
  rw [runItems_closeG]
  simp only [Option.map_some', Option.getD_some, List.nil_append]
  rw [show ('v' :: ver.data) = ['v'] ++ ver.data from rfl]
  have hmax3 : atomMax (Atom.chr 'v') .opt (['v'] ++ ver.data) = (['v']).length := by
    simp [atomMax, Atom.test]
  refine step_quant_head hmax3 (by decide) ?_
  simp only [Option.map_none']
  rw [show ver.data = ver.data ++ ([] : List Char) from (List.append_nil _).symm]
  have hmax4 : atomMax digitCls .star (ver.data ++ ([] : List Char)) =
      ver.data.length := by
    show runLen digitCls.test _ = _
    rw [List.append_nil]
    refine runLen_all ?_
    intro c hc; rw [digitCls_test]; exact hv c hc
  refine step_quant_head hmax4 (Nat.zero_le _) ?_
  rfl

/-- Claim C2: for every medRxiv content URL carrying a DOI followed by a
version marker — any prefix without an `m` (protocol and host variants),
then `medrxiv.org/content/10.<digits>/<DOI tail>v<digits>` where the DOI
tail has no `v`, whitespace or `?` — `extractPaperId` returns the bare DOI
without the trailing version marker. -/
theorem medrxiv_version_trunc (pre n t ver : String)
    (hpre : ∀ c ∈ pre.data, c ≠ 'm')
    (hn1 : n.data ≠ []) (hn2 : ∀ c ∈ n.data, c.isDigit = true)
    (ht1 : t.data ≠ [])
    (ht2 : ∀ c ∈ t.data, c ≠ 'v' ∧ isJsSpace c = false ∧ c ≠ '?')
    (hv : ∀ c ∈ ver.data, c.isDigit = true) :
    medRxivExtractPaperId
        (pre ++ "medrxiv.org/content/10." ++ n ++ "/" ++ t ++ "v" ++ ver) =
      some ("10." ++ n ++ "/" ++ t) := by
  have htcls : ∀ c ∈ t.data, Atom.test medTailCls c = true := by
    intro c hc
    obtain ⟨h1, h2, h3⟩ := ht2 c hc
    simp [medTailCls, Atom.test, CSet.test, CAtom.test, h1, h2, h3]
  have hdata : (pre ++ "medrxiv.org/content/10." ++ n ++ "/" ++ t ++ "v" ++ ver).data =
      pre.data ++ ("medrxiv.org/content/".data ++
        ("10.".data ++ (n.data ++ ('/' :: (t.data ++ ('v' :: ver.data)))))) := by
    have hsplit : "medrxiv.org/content/10.".data =
        "medrxiv.org/content/".data ++ "10.".data := rfl
    simp [data_append, hsplit, List.append_assoc]
  have hm : ∀ c ∈ pre.data, Atom.test (Atom.chr 'm') c = false := by
    intro c hc
    simp [Atom.test]
    exact hpre c hc
  have hcore := medrxiv_match_core n t ver hn1 hn2 ht1 htcls hv
  have hjs : jsMatch medRxivP1
      (pre ++ "medrxiv.org/content/10." ++ n ++ "/" ++ t ++ "v" ++ ver) =
      some [((("10.".data ++ n.data) ++ ['/']) ++ t.data).asString] := by
    unfold jsMatch
    rw [hdata, medP1_flat_head, searchFrom_skip _ pre.data _ hm,
      show "medrxiv.org/content/".data ++
          ("10.".data ++ (n.data ++ ('/' :: (t.data ++ ('v' :: ver.data))))) =
        'm' :: ("edrxiv.org/content/".data ++
          ("10.".data ++ (n.data ++ ('/' :: (t.data ++ ('v' :: ver.data)))))) from rfl,
      ← medP1_flat_head, searchFrom_found (by rw [medP1_flat_head] at hcore ⊢; exact hcore)]
    rfl
  rw [medRxivExtractPaperId,
    show medRxivUrlPatterns = [medRxivP1, medRxivP2] from rfl,
    List.findSome?_cons, hjs]
  simp only [Option.map_some', groupAt]
  rw [asString_eq _ ("10." ++ n ++ "/" ++ t) (by simp [data_append, List.append_assoc])]
  rfl


theorem acmP1_flat_head :
    flattenR (litItems "dl.acm.org/doi/" ++ [acmDoiGroup]) =
      .fatom (.chr 'd') .one ::
        (litsF "l.acm.org/doi/".data ++
          (.openG :: (litsF "10.".data ++
            (.fatom digitCls .plus ::
              .fatom (.chr '/') .one ::
                .fatom digitCls .plus :: [.closeG])))) := rfl

theorem acm_match_core (p a : String) (c : Char) (rest : List Char)
    (hp1 : p.data ≠ []) (hp2 : ∀ ch ∈ p.data, ch.isDigit = true)
    (ha1 : a.data ≠ []) (ha2 : ∀ ch ∈ a.data, ch.isDigit = true)
    (hc : c.isDigit = false) :
    matchFlat (flattenR (litItems "dl.acm.org/doi/" ++ [acmDoiGroup]))
      ⟨"dl.acm.org/doi/".data ++
        ("10.".data ++ (p.data ++ ('/' :: (a.data ++ (c :: rest))))),
       none, []⟩ =
      some ⟨c :: rest, none, [(("10.".data ++ p.data) ++ ['/']) ++ a.data]⟩ := by
  unfold matchFlat
  have hsh : flattenR (litItems "dl.acm.org/doi/" ++ [acmDoiGroup]) =
      litsF "dl.acm.org/doi/".data ++
        (.openG :: (litsF "10.".data ++
          (.fatom digitCls .plus ::
            .fatom (.chr '/') .one ::
              .fatom digitCls .plus :: [.closeG]))) := rfl
  rw [hsh, runItems_lits, runItems_openG, runItems_lits]
  simp only [Option.map_none', Option.map_some', List.nil_append]
  have hmax1 : atomMax digitCls .plus (p.data ++ ('/' :: (a.data ++ (c :: rest)))) =
      p.data.length := by
    show runLen digitCls.test _ = _
    have : ∀ ch ∈ p.data, digitCls.test ch = true := by
      intro ch hch; rw [digitCls_test]; exact hp2 ch hch
    exact runLen_stop _ this (by rw [digitCls_test]; decide)
  refine step_quant_head hmax1 (List.length_pos.mpr hp1) ?_
  rw [runItems_lit (.chr '/') '/' _ _ _ _ (by decide)]
  simp only [Option.map_some']
  have hmax2 : atomMax digitCls .plus (a.data ++ (c :: rest)) = a.data.length := by
    show runLen digitCls.test _ = _
    have : ∀ ch ∈ a.data, digitCls.test ch = true := by
      intro ch hch; rw [digitCls_test]; exact ha2 ch hch
    exact runLen_stop _ this (by rw [digitCls_test]; exact hc)
  refine step_quant_head hmax2 (List.length_pos.mpr ha1) ?_
  rw [runItems_closeG]
  rfl

/-- Claim C10: for every ACM URL `dl.acm.org/doi/10.<digits>/<digits><c><rest>`
whose DOI suffix continues with a non-digit character `c`, `extractPaperId`
returns the truncated identifier consisting of the prefix and only the
leading digits of the suffix, because the capture regex matches only
`10.<digits>/<digits>`. -/
theorem acm_doi_trunc (pre p a rest : String) (c : Char)
    (hpre : ∀ ch ∈ pre.data, ch ≠ 'd')
    (hp1 : p.data ≠ []) (hp2 : ∀ ch ∈ p.data, ch.isDigit = true)
    (ha1 : a.data ≠ []) (ha2 : ∀ ch ∈ a.data, ch.isDigit = true)
    (hc : c.isDigit = false) :
    acmExtractPaperId
        (pre ++ "dl.acm.org/doi/10." ++ p ++ "/" ++ a ++ String.singleton c ++ rest) =
      some ("10." ++ p ++ "/" ++ a) := by
  have hdata : (pre ++ "dl.acm.org/doi/10." ++ p ++ "/" ++ a ++
        String.singleton c ++ rest).data =
      pre.data ++ ("dl.acm.org/doi/".data ++
        ("10.".data ++ (p.data ++ ('/' :: (a.data ++ (c :: rest.data)))))) := by
    have hsplit : "dl.acm.org/doi/10.".data =
        "dl.acm.org/doi/".data ++ "10.".data := rfl
    have hsing : (String.singleton c).data = [c] := rfl
    simp [data_append, hsplit, hsing, List.append_assoc]
  have hm : ∀ ch ∈ pre.data, Atom.test (Atom.chr 'd') ch = false := by
    intro ch hch
    simp [Atom.test]
    exact hpre ch hch
  have hcore := acm_match_core p a c rest.data hp1 hp2 ha1 ha2 hc
  have hjs : jsMatch (litItems "dl.acm.org/doi/" ++ [acmDoiGroup])
      (pre ++ "dl.acm.org/doi/10." ++ p ++ "/" ++ a ++ String.singleton c ++ rest) =
      some [((("10.".data ++ p.data) ++ ['/']) ++ a.data).asString] := by
    unfold jsMatch
    rw [hdata, acmP1_flat_head, searchFrom_skip _ pre.data _ hm,
      show "dl.acm.org/doi/".data ++
          ("10.".data ++ (p.data ++ ('/' :: (a.data ++ (c :: rest.data))))) =
        'd' :: ("l.acm.org/doi/".data ++
          ("10.".data ++ (p.data ++ ('/' :: (a.data ++ (c :: rest.data)))))) from rfl,
      ← acmP1_flat_head, searchFrom_found (by rw [acmP1_flat_head] at hcore ⊢; exact hcore)]
    rfl
  rw [acmExtractPaperId,
    show acmUrlPatterns = [litItems "dl.acm.org/doi/" ++ [acmDoiGroup],
      litItems "dl.acm.org/doi/abs/" ++ [acmDoiGroup],
      litItems "dl.acm.org/citation.cfm?id=" ++ [RItem.group [(digitCls, .plus)]]] from rfl,
    List.findSome?_cons, hjs]
  simp only [Option.map_some', groupAt]
  rw [asString_eq _ ("10." ++ p ++ "/" ++ a) (by simp [data_append, List.append_assoc])]
  rfl



/-- Witness for C2 at the claim's sample URL. -/
theorem medrxiv_version_trunc_witness :
    medRxivExtractPaperId
        "https://www.medrxiv.org/content/10.1101/2021.01.01.000001v2" =
      some "10.1101/2021.01.01.000001" := by
  have h := medrxiv_version_trunc "https://www." "1101" "2021.01.01.000001" "2"
    (by decide) (by decide) (by decide) (by decide) (by decide) (by decide)
  exact h

/-- Witness for C10 at the claim's sample URL. -/
theorem acm_doi_trunc_witness :
    acmExtractPaperId "https://dl.acm.org/doi/10.1145/3375627.3375820" =
      some "10.1145/3375627" := by
  have h := acm_doi_trunc "https://" "1145" "3375627" "3375820" '.'
    (by decide) (by decide) (by decide) (by decide) (by decide) (by decide)
  exact h

end PapersFeed
